import Mathlib

/-!
Shallow embedding of the pet-CLI terminal application (src/src/main.rs).

The embedding models the event dispatcher `handle_user_input`, the store
operations `read_db`, `add_random_pet_to_db` and `remove_pet_at_index`,
and the application state. File contents are modelled as a value of type
`DbFile`: either the parsed list of pets, or the store error raised while
reading or parsing the backing file (writes are modelled as succeeding;
read and parse failures already exercise every error path the claims
mention). Randomness is modelled by passing the draws the Rust rng
produces as an explicit `RngDraws` argument; the contract of
`rng.gen_range(lo, hi)` is the predicate `genRange lo hi r`.

Rust panics (a failed `.expect`, an out-of-bounds `Vec::remove`, a usize
subtraction underflow in a debug build) abort the process; the embedding
makes them explicit: `usizeSub` and `vecRemove` return `none` on the
aborting case, and a dispatcher step that panics is the `StepResult.aborted`
outcome, carrying the list of terminal-restore actions performed before the
abort. In a release build the usize subtraction wraps to 2^64 - 1 instead
of aborting; either way the step is not a no-op, which is all the claims
about the empty sequence need.
-/

namespace PetCli

/-- Store error taxonomy of the source `Error` enum: `ReadDBError` wraps the
io error from reading the backing file, `ParseDBError` the serde error. -/
inductive StoreError where
  | ReadDBError
  | ParseDBError
deriving DecidableEq, Repr

/-- The `Pet` record. `created_at` (a UTC timestamp in the source) is
modelled as a natural number. -/
structure Pet where
  id : Nat
  name : String
  category : String
  age : Nat
  created_at : Nat
deriving DecidableEq, Repr

/-- The `MenuItem` enum: the active view. -/
inductive MenuItem where
  | Home
  | Pets
deriving DecidableEq, Repr

/-- The `From<MenuItem> for usize` conversion. -/
def MenuItem.toIndex : MenuItem → Nat
  | .Home => 0
  | .Pets => 1

/-- The tui `ListState`: the part the program uses is the selection. -/
structure ListState where
  selected : Option Nat
deriving DecidableEq, Repr

/-- `ListState::select`. -/
def ListState.select (s : Option Nat) : ListState := ⟨s⟩

/-- The application state: menu titles, active view, pet list selection. -/
structure AppState where
  menu_titles : List String
  active_menu_item : MenuItem
  pet_list_state : ListState

/-- `AppState::default`: titles, Home view, selection set to `Some(0)`. -/
def AppState.default : AppState :=
  { menu_titles := ["Home", "Pets", "Add", "Delete", "Quit"]
    active_menu_item := .Home
    pet_list_state := ListState.select (some 0) }

/-- The dispatcher result enum. -/
inductive ResponseToUserInput where
  | Continue
  | Stop
deriving DecidableEq, Repr

/-- Key codes: the dispatcher only distinguishes character keys; every
other key falls into the wildcard arm. -/
inductive KeyCode where
  | char (c : Char)
  | other
deriving DecidableEq, Repr

/-- The channel event: a key press or a timer tick. -/
inductive Event where
  | Input (k : KeyCode)
  | Tick
deriving DecidableEq, Repr

/-- Contents of the backing file as seen through read plus parse:
`Except.error e` when `fs::read_to_string` or `serde_json::from_str`
fails, `Except.ok pets` when the file parses to a pet list. -/
abbrev DbFile := Except StoreError (List Pet)

/-- The draws the rng produces inside `add_random_pet_to_db`, passed
explicitly: the category selector `gen_range(0, 1)`, the id
`gen_range(0, 9999999)`, the ten-character name, the age
`gen_range(1, 15)`, and the current time. -/
structure RngDraws where
  catDraw : Nat
  idDraw : Nat
  nameDraw : String
  ageDraw : Nat
  now : Nat
deriving DecidableEq, Repr

/-- Contract of `rng.gen_range(lo, hi)`: the result lies in the half-open
range `[lo, hi)`. -/
def genRange (lo hi r : Nat) : Prop := lo ≤ r ∧ r < hi

/-- Terminal-restore actions the dispatcher can perform. -/
inductive TermAction where
  | disableRawMode
  | showCursor
deriving DecidableEq, Repr

/-- Outcome of one dispatcher step. `aborted` models a Rust panic (the
process terminates); `ok` carries the `ResponseToUserInput` together with
the updated active view, selection and file contents. Both carry the list
of terminal-restore actions performed during the step. -/
inductive StepResult where
  | aborted (msg : String) (termActions : List TermAction)
  | ok (resp : ResponseToUserInput) (active : MenuItem) (st : ListState)
      (file : DbFile) (termActions : List TermAction)

/-- Rust usize subtraction `a - b`: `none` models the
attempt-to-subtract-with-overflow abort of a debug build when `b > a`. -/
def usizeSub (a b : Nat) : Option Nat :=
  if b ≤ a then some (a - b) else none

/-- Rust `Vec::remove(i)`: removes the element at position `i`; `none`
models the abort when `i` is out of bounds. -/
def vecRemove (xs : List Pet) (i : Nat) : Option (List Pet) :=
  if i < xs.length then some (xs.take i ++ xs.drop (i + 1)) else none

/-- `read_db`: read and parse the backing file. In the embedding the file
is already the read-plus-parse outcome, so this is the identity. -/
def read_db (file : DbFile) : Except StoreError (List Pet) := file

/-- The category selector of `add_random_pet_to_db`:
`match rng.gen_range(0, 1) { 0 => "cats", _ => "dogs" }`. -/
def catsdogs (r : Nat) : String :=
  match r with
  | 0 => "cats"
  | _ => "dogs"

/-- The random pet built inside `add_random_pet_to_db` from the rng draws. -/
def mkRandomPet (d : RngDraws) : Pet :=
  { id := d.idDraw
    name := d.nameDraw
    category := catsdogs d.catDraw
    age := d.ageDraw
    created_at := d.now }

/-- `add_random_pet_to_db`: read and parse the file (propagating its
error), push the random pet, persist, and return the new list. -/
def add_random_pet_to_db (file : DbFile) (d : RngDraws) :
    Except StoreError (List Pet) :=
  match file with
  | .error e => .error e
  | .ok parsed => .ok (parsed ++ [mkRandomPet d])

/-- `remove_pet_at_index`. The outer `Option` is the abort of the
unchecked `parsed.remove(selected)`; the inner `Except` is the Result the
function returns. On success it yields the updated selection
(`selected - 1` when positive, else `0`) and the persisted list. When the
selection is `None` the function returns `Ok(())` without touching
anything. -/
def remove_pet_at_index (st : ListState) (file : DbFile) :
    Option (Except StoreError (ListState × DbFile)) :=
  match st.selected with
  | none => some (.ok (st, file))
  | some selected =>
    match file with
    | .error e => some (.error e)
    | .ok parsed =>
      match vecRemove parsed selected with
      | none => none
      | some parsed2 =>
        some (.ok (ListState.select
          (some (if selected > 0 then selected - 1 else 0)), .ok parsed2))

/-- The body of the `match event.code` in `handle_user_input`, one arm per
character key. The failed `.expect` calls on the add, delete and read
paths are the `aborted` outcomes; the quit arm performs
`disable_raw_mode` then `show_cursor` and returns `Stop`. -/
def handleKeyChar (c : Char) (active : MenuItem) (st : ListState)
    (file : DbFile) (d : RngDraws) : StepResult :=
  match c with
  | 'q' => .ok .Stop active st file [.disableRawMode, .showCursor]
  | 'h' => .ok .Continue .Home st file []
  | 'p' => .ok .Continue .Pets st file []
  | 'a' =>
    match add_random_pet_to_db file d with
    | .error _ => .aborted "can add new random pet" []
    | .ok parsed2 => .ok .Continue active st (.ok parsed2) []
  | 'd' =>
    match remove_pet_at_index st file with
    | none => .aborted "removal index out of bounds" []
    | some (.error _) => .aborted "can remove pet" []
    | some (.ok (st2, file2)) => .ok .Continue active st2 file2 []
  | 'j' =>
    match st.selected with
    | none => .ok .Continue active st file []
    | some selected =>
      match read_db file with
      | .error _ => .aborted "can fetch pet list" []
      | .ok pets =>
        match usizeSub pets.length 1 with
        | none => .aborted "attempt to subtract with overflow" []
        | some lastIdx =>
          if selected ≥ lastIdx then
            .ok .Continue active (ListState.select (some 0)) file []
          else
            .ok .Continue active (ListState.select (some (selected + 1))) file []
  | 'k' =>
    match st.selected with
    | none => .ok .Continue active st file []
    | some selected =>
      match read_db file with
      | .error _ => .aborted "can fetch pet list" []
      | .ok pets =>
        if selected > 0 then
          .ok .Continue active (ListState.select (some (selected - 1))) file []
        else
          match usizeSub pets.length 1 with
          | none => .aborted "attempt to subtract with overflow" []
          | some lastIdx =>
            .ok .Continue active (ListState.select (some lastIdx)) file []
  | _ => .ok .Continue active st file []

/-- One step of `handle_user_input` on a received event: a tick (and any
non-character key) leaves everything unchanged and continues; a character
key is dispatched through the `match event.code` arms. -/
def handle_user_input (ev : Event) (active : MenuItem) (st : ListState)
    (file : DbFile) (d : RngDraws) : StepResult :=
  match ev with
  | .Tick => .ok .Continue active st file []
  | .Input (.char c) => handleKeyChar c active st file d
  | .Input .other => .ok .Continue active st file []

/-- A fixed sample of rng draws, used for concrete evaluations. -/
def sampleDraws : RngDraws :=
  { catDraw := 0, idDraw := 42, nameDraw := "abcdefghij", ageDraw := 3, now := 0 }

/-- A fixed sample pet, used for concrete evaluations. -/
def samplePet : Pet :=
  { id := 1, name := "rex", category := "cats", age := 2, created_at := 0 }

/-- Specification of the next-key arm on a non-empty store with an
in-bounds selection: wrap to 0 from the last index, else advance. -/
theorem handle_j_spec (pets : List Pet) (i : Nat) (active : MenuItem)
    (d : RngDraws) (hi : i < pets.length) :
    handle_user_input (.Input (.char 'j')) active (ListState.select (some i))
        (.ok pets) d =
      .ok .Continue active
        (ListState.select (some (if i = pets.length - 1 then 0 else i + 1)))
        (.ok pets) [] := by
  have h1 : 1 ≤ pets.length := Nat.lt_of_le_of_lt (Nat.zero_le i) hi
  simp only [handle_user_input, handleKeyChar, ListState.select, read_db,
    usizeSub, if_pos h1]
  by_cases he : i = pets.length - 1
  · have hge : i ≥ pets.length - 1 := Nat.le_of_eq he.symm
    simp [he, hge]
  · have hlt : ¬ i ≥ pets.length - 1 := by omega
    simp [he, hlt]

/-- Specification of the previous-key arm on a non-empty store with an
in-bounds selection: wrap to the last index from 0, else retreat. -/
theorem handle_k_spec (pets : List Pet) (i : Nat) (active : MenuItem)
    (d : RngDraws) (hi : i < pets.length) :
    handle_user_input (.Input (.char 'k')) active (ListState.select (some i))
        (.ok pets) d =
      .ok .Continue active
        (ListState.select (some (if i = 0 then pets.length - 1 else i - 1)))
        (.ok pets) [] := by
  have h1 : 1 ≤ pets.length := Nat.lt_of_le_of_lt (Nat.zero_le i) hi
  simp only [handle_user_input, handleKeyChar, ListState.select, read_db,
    usizeSub, if_pos h1]
  by_cases h0 : i = 0
  · simp [h0]
  · have hpos : i > 0 := Nat.pos_of_ne_zero h0
    simp [h0, hpos]

/-- Specification of the delete-key arm on a store with an in-bounds
selection: the element at the selected position is removed and the
selection moves to the predecessor (clamped at 0). -/
theorem handle_d_spec (pets : List Pet) (i : Nat) (active : MenuItem)
    (d : RngDraws) (hi : i < pets.length) :
    handle_user_input (.Input (.char 'd')) active (ListState.select (some i))
        (.ok pets) d =
      .ok .Continue active
        (ListState.select (some (if i > 0 then i - 1 else 0)))
        (.ok (pets.take i ++ pets.drop (i + 1))) [] := by
  simp only [handle_user_input, handleKeyChar, remove_pet_at_index,
    ListState.select, vecRemove, if_pos hi]

/-- Claim C1. The claim states that select-next, select-previous and
delete-selected are no-ops on the empty record sequence that never fail or
underflow. The code violates it: with the empty sequence and the startup
selection `Some(0)`, the next and previous keys evaluate
`amount_pets - 1` with `amount_pets = 0`, a usize underflow that aborts a
debug build (and in a release build wraps, moving the selection — not a
no-op either), and the delete key reaches the unchecked `Vec::remove` on
an empty vector, which aborts. This theorem evaluates the dispatcher at
the three failing inputs. -/
theorem c1_empty_sequence_not_noop :
    handle_user_input (.Input (.char 'j')) .Pets (ListState.select (some 0))
        (.ok []) sampleDraws =
      .aborted "attempt to subtract with overflow" []
    ∧ handle_user_input (.Input (.char 'k')) .Pets (ListState.select (some 0))
        (.ok []) sampleDraws =
      .aborted "attempt to subtract with overflow" []
    ∧ handle_user_input (.Input (.char 'd')) .Pets (ListState.select (some 0))
        (.ok []) sampleDraws =
      .aborted "removal index out of bounds" [] :=
  ⟨rfl, rfl, rfl⟩

/-- Claim C2. The claim states that a store error during add or delete is
reported and the dispatcher returns Continue. The code violates it: both
handlers unwrap the store result with `.expect`, so a read or parse error
aborts the process instead of continuing. This theorem evaluates the
dispatcher on a store error for both keys. -/
theorem c2_store_error_aborts_dispatcher :
    handle_user_input (.Input (.char 'a')) .Home (ListState.select (some 0))
        (.error .ReadDBError) sampleDraws =
      .aborted "can add new random pet" []
    ∧ handle_user_input (.Input (.char 'd')) .Home (ListState.select (some 0))
        (.error .ParseDBError) sampleDraws =
      .aborted "can remove pet" [] :=
  ⟨rfl, rfl⟩

/-- Claim C3. The claim states that `removeAt` returns an explicit
IndexError on an out-of-bounds index rather than aborting the process.
The code violates the first half: the unchecked `parsed.remove(selected)`
aborts on an out-of-bounds index (first conjunct, index 1 into a
one-element list). The in-bounds half holds (second conjunct: index 0
removes the element and persists the empty list). -/
theorem c3_out_of_bounds_aborts_not_error :
    remove_pet_at_index (ListState.select (some 1)) (.ok [samplePet]) = none
    ∧ remove_pet_at_index (ListState.select (some 0)) (.ok [samplePet]) =
        some (.ok (ListState.select (some 0), .ok [])) :=
  ⟨rfl, rfl⟩

/-- Claim C7. The claim states that the terminal is restored (raw mode
disabled, cursor shown) on every exit path. The code restores it only in
the quit arm: the first conjunct shows the quit path performs both
restore actions before stopping; the second shows an abnormal-termination
exit path (delete aborting on an empty store) performs no terminal
action at all, so the process exits with the terminal still in raw mode. -/
theorem c7_restore_only_on_quit_path :
    handle_user_input (.Input (.char 'q')) .Home (ListState.select (some 0))
        (.ok []) sampleDraws =
      .ok .Stop .Home (ListState.select (some 0)) (.ok [])
        [.disableRawMode, .showCursor]
    ∧ handle_user_input (.Input (.char 'd')) .Pets (ListState.select (some 2))
        (.ok [samplePet]) sampleDraws =
      .aborted "removal index out of bounds" [] :=
  ⟨rfl, rfl⟩

/-- Claim C4. On a non-empty store with a selected index `i` that indexes
the sequence, the next key wraps to 0 from the last index and otherwise
advances to `i + 1`, and the previous key wraps to the last index from 0
and otherwise retreats to `i - 1`; in particular, from 3 records and
selection 0, next twice gives selection 2 and a third next wraps to 0. -/
theorem c4_next_prev_wrap (pets : List Pet) (i : Nat) (active : MenuItem)
    (d : RngDraws) (hi : i < pets.length) :
    handle_user_input (.Input (.char 'j')) active (ListState.select (some i))
        (.ok pets) d =
      .ok .Continue active
        (ListState.select (some (if i = pets.length - 1 then 0 else i + 1)))
        (.ok pets) []
    ∧ handle_user_input (.Input (.char 'k')) active (ListState.select (some i))
        (.ok pets) d =
      .ok .Continue active
        (ListState.select (some (if i = 0 then pets.length - 1 else i - 1)))
        (.ok pets) []
    ∧ (∀ (p1 p2 p3 : Pet) (a : MenuItem) (dd : RngDraws),
        handle_user_input (.Input (.char 'j')) a (ListState.select (some 0))
            (.ok [p1, p2, p3]) dd =
          .ok .Continue a (ListState.select (some 1)) (.ok [p1, p2, p3]) []
        ∧ handle_user_input (.Input (.char 'j')) a (ListState.select (some 1))
            (.ok [p1, p2, p3]) dd =
          .ok .Continue a (ListState.select (some 2)) (.ok [p1, p2, p3]) []
        ∧ handle_user_input (.Input (.char 'j')) a (ListState.select (some 2))
            (.ok [p1, p2, p3]) dd =
          .ok .Continue a (ListState.select (some 0)) (.ok [p1, p2, p3]) []) :=
  ⟨handle_j_spec pets i active d hi, handle_k_spec pets i active d hi,
    fun _ _ _ _ _ => ⟨rfl, rfl, rfl⟩⟩

/-- Witness for C4 at a concrete input: a two-element store with
selection 0, where next advances to 1. -/
theorem c4_next_prev_wrap_witness :
    0 < [samplePet, samplePet].length
    ∧ handle_user_input (.Input (.char 'j')) .Pets (ListState.select (some 0))
        (.ok [samplePet, samplePet]) sampleDraws =
      .ok .Continue .Pets
        (ListState.select
          (some (if 0 = [samplePet, samplePet].length - 1 then 0 else 0 + 1)))
        (.ok [samplePet, samplePet]) [] :=
  ⟨by decide,
    (c4_next_prev_wrap [samplePet, samplePet] 0 .Pets sampleDraws (by decide)).1⟩

/-- Claim C5. On a store with an in-bounds selection `Some(i)`, the delete
key removes the element at position `i` and sets the selection to
`max(i - 1, 0)`; in particular, deleting from a one-element store with
selection 0 leaves the empty sequence with selection still 0. -/
theorem c5_delete_selected (pets : List Pet) (i : Nat) (active : MenuItem)
    (d : RngDraws) (hi : i < pets.length) :
    handle_user_input (.Input (.char 'd')) active (ListState.select (some i))
        (.ok pets) d =
      .ok .Continue active (ListState.select (some (max (i - 1) 0)))
        (.ok (pets.take i ++ pets.drop (i + 1))) []
    ∧ (pets.take i ++ pets.drop (i + 1)).length = pets.length - 1
    ∧ (∀ (p : Pet) (a : MenuItem) (dd : RngDraws),
        handle_user_input (.Input (.char 'd')) a (ListState.select (some 0))
            (.ok [p]) dd =
          .ok .Continue a (ListState.select (some 0)) (.ok []) []) := by
  refine ⟨?_, ?_, fun _ _ _ => rfl⟩
  · rw [handle_d_spec pets i active d hi]
    have hsel : (if i > 0 then i - 1 else 0) = max (i - 1) 0 := by
      rcases Nat.eq_zero_or_pos i with h0 | h0 <;> simp [h0]
    rw [hsel]
  · simp only [List.length_append, List.length_take, List.length_drop]
    omega

/-- Witness for C5 at a concrete input: deleting from the one-element
store with selection 0 empties the store and keeps selection 0. -/
theorem c5_delete_selected_witness :
    0 < [samplePet].length
    ∧ handle_user_input (.Input (.char 'd')) .Pets (ListState.select (some 0))
        (.ok [samplePet]) sampleDraws =
      .ok .Continue .Pets (ListState.select (some (max (0 - 1) 0)))
        (.ok ([samplePet].take 0 ++ [samplePet].drop (0 + 1))) [] :=
  ⟨by decide, (c5_delete_selected [samplePet] 0 .Pets sampleDraws (by decide)).1⟩

/-- Claim C6. For every in-bounds index `i`, the removal succeeds (no
abort, no store error), the resulting sequence is one element shorter,
and it is a sublist of the original sequence — all remaining elements
keep their original relative order. -/
theorem c6_removeAt_shrinks_preserves_order (xs : List Pet) (i : Nat)
    (hi : i < xs.length) :
    remove_pet_at_index (ListState.select (some i)) (.ok xs) =
      some (.ok (ListState.select (some (if i > 0 then i - 1 else 0)),
        .ok ((vecRemove xs i).getD [])))
    ∧ ((vecRemove xs i).getD []).length + 1 = xs.length
    ∧ ((vecRemove xs i).getD []).Sublist xs := by
  have hv : vecRemove xs i = some (xs.take i ++ xs.drop (i + 1)) := by
    simp [vecRemove, hi]
  refine ⟨?_, ?_, ?_⟩
  · simp [remove_pet_at_index, ListState.select, hv]
  · rw [hv]
    simp only [Option.getD_some, List.length_append, List.length_take,
      List.length_drop]
    omega
  · rw [hv]
    simp only [Option.getD_some]
    have hdd : xs.drop (i + 1) = (xs.drop i).drop 1 := by
      rw [List.drop_drop, Nat.add_comm]
    have hsub : (xs.take i ++ xs.drop (i + 1)).Sublist
        (xs.take i ++ xs.drop i) := by
      rw [hdd]
      exact List.Sublist.append_left (List.drop_sublist 1 (xs.drop i)) _
    rw [List.take_append_drop] at hsub
    exact hsub

/-- Witness for C6 at a concrete input: removing index 0 from a
two-element store. -/
theorem c6_removeAt_witness :
    0 < [samplePet, samplePet].length
    ∧ remove_pet_at_index (ListState.select (some 0)) (.ok [samplePet, samplePet]) =
      some (.ok (ListState.select (some (if 0 > 0 then 0 - 1 else 0)),
        .ok ((vecRemove [samplePet, samplePet] 0).getD [])))
    ∧ ((vecRemove [samplePet, samplePet] 0).getD []).length + 1 =
        [samplePet, samplePet].length
    ∧ ((vecRemove [samplePet, samplePet] 0).getD []).Sublist
        [samplePet, samplePet] :=
  ⟨by decide, c6_removeAt_shrinks_preserves_order [samplePet, samplePet] 0 (by decide)⟩

/-- Claim C8. Pressing the add key on the empty store yields a stored
sequence of length exactly 1, and the category of the new record is one of
the two allowed values, cats or dogs, whatever the rng draws. -/
theorem c8_add_on_empty_store (active : MenuItem) (st : ListState)
    (d : RngDraws) :
    handle_user_input (.Input (.char 'a')) active st (.ok []) d =
      .ok .Continue active st (.ok [mkRandomPet d]) []
    ∧ [mkRandomPet d].length = 1
    ∧ ((mkRandomPet d).category = "cats" ∨ (mkRandomPet d).category = "dogs") := by
  refine ⟨rfl, rfl, ?_⟩
  show catsdogs d.catDraw = "cats" ∨ catsdogs d.catDraw = "dogs"
  cases d.catDraw with
  | zero => exact Or.inl rfl
  | succ n => exact Or.inr rfl

/-- Claim C10. Under the contract of `rng.gen_range(0, 1)` — the draw lies
in the half-open range `[0, 1)`, hence is 0 — every record the add
operation appends has category exactly cats: the dogs arm is dead code. -/
theorem c10_category_always_cats (db : List Pet) (d : RngDraws)
    (h : genRange 0 1 d.catDraw) :
    add_random_pet_to_db (.ok db) d = .ok (db ++ [mkRandomPet d])
    ∧ (mkRandomPet d).category = "cats" := by
  refine ⟨rfl, ?_⟩
  have h0 : d.catDraw = 0 := Nat.lt_one_iff.mp h.2
  show catsdogs d.catDraw = "cats"
  rw [h0]
  rfl

/-- Witness for C10 at a concrete input: the sample draws satisfy the
gen_range contract and produce a cats record. -/
theorem c10_category_always_cats_witness :
    genRange 0 1 sampleDraws.catDraw
    ∧ (add_random_pet_to_db (.ok []) sampleDraws =
        .ok ([] ++ [mkRandomPet sampleDraws])
      ∧ (mkRandomPet sampleDraws).category = "cats") :=
  ⟨⟨Nat.le_refl 0, Nat.zero_lt_one⟩,
    c10_category_always_cats [] sampleDraws ⟨Nat.le_refl 0, Nat.zero_lt_one⟩⟩

/-- Any successful run of `remove_pet_at_index` keeps the selection a
`Some` value when it was one before: both arms of its final branch select
an explicit `Some`. -/
theorem remove_pet_keeps_selection (st : ListState) (file : DbFile)
    (st2 : ListState) (f2 : DbFile) (hsome : st.selected.isSome = true)
    (h : remove_pet_at_index st file = some (.ok (st2, f2))) :
    st2.selected.isSome = true := by
  obtain ⟨sel⟩ := st
  cases sel with
  | none => simp at hsome
  | some s =>
    cases file with
    | error e => simp [remove_pet_at_index] at h
    | ok parsed =>
      cases hv : vecRemove parsed s with
      | none => simp [remove_pet_at_index, hv] at h
      | some parsed2 =>
        simp only [remove_pet_at_index, hv, Option.some.injEq,
          Except.ok.injEq, Prod.mk.injEq] at h
        rw [← h.1]
        rfl

/-- Claim C9. The selection is `Some(0)` in the default application state,
and every dispatcher step that completes (returns rather than aborting)
keeps the selection a `Some` value: no key handler ever sets it to `None`,
so a `Some` selection is an invariant of every reachable state. -/
theorem c9_selection_invariant :
    AppState.default.pet_list_state.selected = some 0
    ∧ ∀ (ev : Event) (active : MenuItem) (st : ListState) (file : DbFile)
        (d : RngDraws) (resp : ResponseToUserInput) (a2 : MenuItem)
        (st2 : ListState) (f2 : DbFile) (acts : List TermAction),
        st.selected.isSome = true →
        handle_user_input ev active st file d = .ok resp a2 st2 f2 acts →
        st2.selected.isSome = true := by
  refine ⟨rfl, ?_⟩
  intro ev active st file d resp a2 st2 f2 acts hsome hstep
  cases ev with
  | Tick =>
    injection hstep with h1 h2 h3 h4 h5
    rw [← h3]; exact hsome
  | Input k =>
    cases k with
    | other =>
      injection hstep with h1 h2 h3 h4 h5
      rw [← h3]; exact hsome
    | char c =>
      simp only [handle_user_input] at hstep
      unfold handleKeyChar at hstep
      split at hstep
      · injection hstep with h1 h2 h3 h4 h5; rw [← h3]; exact hsome
      · injection hstep with h1 h2 h3 h4 h5; rw [← h3]; exact hsome
      · injection hstep with h1 h2 h3 h4 h5; rw [← h3]; exact hsome
      · split at hstep
        · exact StepResult.noConfusion hstep
        · injection hstep with h1 h2 h3 h4 h5; rw [← h3]; exact hsome
      · split at hstep
        · exact StepResult.noConfusion hstep
        · exact StepResult.noConfusion hstep
        · rename_i st' f' heq
          injection hstep with h1 h2 h3 h4 h5
          rw [← h3]
          exact remove_pet_keeps_selection st file st' f' hsome heq
      · split at hstep
        · injection hstep with h1 h2 h3 h4 h5; rw [← h3]; exact hsome
        · split at hstep
          · exact StepResult.noConfusion hstep
          · split at hstep
            · exact StepResult.noConfusion hstep
            · split at hstep
              · injection hstep with h1 h2 h3 h4 h5; rw [← h3]; rfl
              · injection hstep with h1 h2 h3 h4 h5; rw [← h3]; rfl
      · split at hstep
        · injection hstep with h1 h2 h3 h4 h5; rw [← h3]; exact hsome
        · split at hstep
          · exact StepResult.noConfusion hstep
          · split at hstep
            · injection hstep with h1 h2 h3 h4 h5; rw [← h3]; rfl
            · split at hstep
              · exact StepResult.noConfusion hstep
              · injection hstep with h1 h2 h3 h4 h5; rw [← h3]; rfl
      · injection hstep with h1 h2 h3 h4 h5; rw [← h3]; exact hsome

/-- Witness for C9 at a concrete input: a tick step from selection
`Some(0)` keeps the selection a `Some` value. -/
theorem c9_selection_invariant_witness :
    (ListState.select (some 0)).selected.isSome = true
    ∧ handle_user_input .Tick .Home (ListState.select (some 0)) (.ok [])
        sampleDraws =
      .ok .Continue .Home (ListState.select (some 0)) (.ok []) []
    ∧ (ListState.select (some 0)).selected.isSome = true :=
  ⟨rfl, rfl,
    c9_selection_invariant.2 .Tick .Home (ListState.select (some 0)) (.ok [])
      sampleDraws .Continue .Home (ListState.select (some 0)) (.ok []) [] rfl rfl⟩

end PetCli
